import Mathlib

/-!
Shallow embedding of `dunereco/TrackPID/CTPHelper.cxx` (track-PID feature
extraction) and verification of its specification.

Modelling conventions:
* C++ `float` values are embedded as exact rationals `ℚ`; `std::sqrt` is an
  abstract parameter `sq : ℚ → ℚ` (external math library).
* `TVector3` directions are triples `ℚ × ℚ × ℚ`; `TVector3::Angle` is an
  abstract parameter `angle` (external ROOT library).
* The Gaussian random source (`std::default_random_engine` +
  `std::normal_distribution<float>(mean,sigma)`) is an abstract stream
  `gauss : ℚ → ℚ → ℕ → ℚ`: `gauss mean sigma n` is the n-th draw.
* Out-of-range vector reads that are undefined behaviour in the C++ are
  modelled with `Option` where a claim depends on them (`GetNetworkInputs`
  returns `none` when the iterator arithmetic at line 101 underflows the
  buffer); claims about code paths that stay in bounds carry hypotheses
  keeping the embedding and the C++ in the same (defined) regime.
-/

namespace CTP

/-- Configuration fixed at construction (CTPHelper constructor, lines 33-43):
`fMinTrackPoints` (default 50), `fDedxLength` (default 100), `fQMax`
(default 1000), `fQJump` (default 500). -/
structure Config where
  minTrackPoints : ℕ
  dedxLength : ℕ
  QMax : ℚ
  QJump : ℚ
deriving DecidableEq

/-- A 3D direction vector (external `TVector3`). -/
abbrev V3 := ℚ × ℚ × ℚ

/-- The data of one reconstructed child PFParticle, as seen through the
external collaborators: its own track/shower classification (what
`IsTrack(child,..)` / `IsShower(child,..)` would return) and its
`NumDaughters()` count. -/
structure Child where
  numDaughters : ℕ
  isTrk : Bool
  isShw : Bool
deriving DecidableEq

/-- One interior iteration of the jump-smoothing loop
(CTPHelper.cxx lines 147-152): if `dedx[q] - dedx[q-1] > fQJump`,
`dedx[q]` is replaced by `0.5 * (dedx[q-1] + dedx[q+1])`.  The loop is
sequential: iteration `q` sees the updates of earlier iterations. -/
def smoothStep (fQJump : ℚ) (d : List ℚ) (q : ℕ) : List ℚ :=
  if d.getD q 0 - d.getD (q - 1) 0 > fQJump
  then d.set q ((1/2) * (d.getD (q - 1) 0 + d.getD (q + 1) 0))
  else d

/-- Embedding of `CTPHelper::SmoothDedxVector` (CTPHelper.cxx lines 133-154).
The "clamp" loop at lines 136-139 is `for(float val : dedx)`: `val` is a
by-value copy, so the assignments `val = fQMax` / `val = 0` never reach the
vector.  The loop has no observable effect and is embedded as such; `fQMax`
is kept as a parameter because the member variable is read there. -/
def SmoothDedxVector (fQMax fQJump : ℚ) (dedx : List ℚ) : List ℚ :=
  let _clampIsByValue := fQMax
  let nQ := dedx.length
  let d1 :=
    if dedx.getD 0 0 - dedx.getD 1 0 > fQJump
    then dedx.set 0 (dedx.getD 1 0 + (dedx.getD 1 0 - dedx.getD 2 0))
    else dedx
  let d2 :=
    if d1.getD (nQ - 1) 0 - d1.getD (nQ - 2) 0 > fQJump
    then d1.set (nQ - 1) (d1.getD (nQ - 2) 0 + (d1.getD (nQ - 2) 0 - d1.getD (nQ - 3) 0))
    else d1
  (List.range' 1 (nQ - 2)).foldl (smoothStep fQJump) d2

/-- Modelled from the spec: the clamp the Signal Conditioner is documented
to perform (spec §4.1, and the source comment at line 135): any value
`> clampMax` becomes `clampMax`, any value `< 0` becomes `0`.  This is the
behaviour the claim attributes to lines 136-139; compare with
`SmoothDedxVector`, where the by-value loop leaves the vector unchanged. -/
def clampSpec (clampMax : ℚ) (xs : List ℚ) : List ℚ :=
  xs.map (fun v => if v > clampMax then clampMax else if v < 0 then 0 else v)

/-- The random source delivers, from every position onward, some
non-negative draw: exactly the termination condition of the rejection
loop at CTPHelper.cxx lines 165-170. -/
def GaussOk (gauss : ℚ → ℚ → ℕ → ℚ) : Prop :=
  ∀ mean sigma k, ∃ n, 0 ≤ gauss mean sigma (k + n)

/-- The padding loop of `CTPHelper::PadDedxVector` (lines 162-173): `m` is
the number of values still to prepend, `pos` the position of the next draw
in the random stream.  Each iteration runs the do-while at lines 165-170
(accept the first non-negative draw) and prepends the accepted value
(`dedx.insert(dedx.begin(), randVal)`, line 172). -/
def padLoop (gauss : ℚ → ℚ → ℕ → ℚ) (hg : GaussOk gauss) (mean sigma : ℚ) :
    ℕ → ℕ → List ℚ → List ℚ
  | 0, _, d => d
  | m + 1, pos, d =>
    padLoop gauss hg mean sigma m (pos + Nat.find (hg mean sigma pos) + 1)
      (gauss mean sigma (pos + Nat.find (hg mean sigma pos)) :: d)

/-- Embedding of `CTPHelper::PadDedxVector` (lines 156-175).  The loop
`for(h = 0; h + originalSize < fDedxLength; ++h)` prepends exactly
`fDedxLength - originalSize` values (none when the vector is already that
long). -/
def PadDedxVector (fDedxLength : ℕ) (gauss : ℚ → ℚ → ℕ → ℚ) (hg : GaussOk gauss)
    (mean sigma : ℚ) (dedx : List ℚ) : List ℚ :=
  padLoop gauss hg mean sigma (fDedxLength - dedx.length) 0 dedx

/-- Embedding of `CTPHelper::GetDedxMeanAndSigma` (lines 177-185): sum the values, divide
by the count, then sum the squared deviations and divide by the count again;
the second component is `std::sqrt` (the abstract `sq`) of that quotient. -/
def GetDedxMeanAndSigma (sq : ℚ → ℚ) (dedx : List ℚ) : ℚ × ℚ :=
  let mean := dedx.sum / (dedx.length : ℚ)
  (mean, sq ((dedx.map (fun q => (mean - q) * (mean - q))).sum / (dedx.length : ℚ)))

/-- Line 89: `pointsForAverage = (fDedxLength - fMinTrackPoints) / 3`,
unsigned integer division. -/
def pointsForAverage (cfg : Config) : ℕ :=
  (cfg.dedxLength - cfg.minTrackPoints) / 3

/-- The window extraction of lines 88-92: `avStart = size-1-p`,
`avEnd = size-1-2p`, then `for(e = avStart; e > avEnd; --e)
dedxTrunc.push_back(dedxVector.at(e))`, i.e. the elements at indices
`avStart, avStart-1, ..., avEnd+1` in that (reverse) order. -/
def dedxWindow (cfg : Config) (d : List ℚ) : List ℚ :=
  let p := pointsForAverage cfg
  let avStart := d.length - 1 - p
  let avEnd := d.length - 1 - 2 * p
  ((List.range' (avEnd + 1) (avStart - avEnd)).reverse).map (fun e => d.getD e 0)

/-- Modelled from the spec: the window the claim describes, the elements at
indices in the half-open range `[size-1-2p, size-1-p)`.  Compare with
`dedxWindow`, the window the source actually reads. -/
def dedxWindowClaim (cfg : Config) (d : List ℚ) : List ℚ :=
  let p := pointsForAverage cfg
  (List.range' (d.length - 1 - 2 * p) p).map (fun e => d.getD e 0)

/-- Embedding of `CTPHelper::GetDeflectionMeanAndSigma` (lines 187-203): for each `p` in
`[1, NPoints)` the angle between the directions at points `p` and `p-1`
(the abstract `angle` stands for `TVector3::Angle`), then the same
mean/population-sigma computation as `GetDedxMeanAndSigma`, written out
again in the source. -/
def GetDeflectionMeanAndSigma (sq : ℚ → ℚ) (angle : V3 → V3 → ℚ)
    (dirs : List V3) : ℚ × ℚ :=
  let trajAngle := (List.range' 1 (dirs.length - 1)).map
    (fun p => angle (dirs.getD p (0, 0, 0)) (dirs.getD (p - 1) (0, 0, 0)))
  let mean := trajAngle.sum / (trajAngle.length : ℚ)
  (mean, sq ((trajAngle.map (fun a => (mean - a) * (mean - a))).sum / (trajAngle.length : ℚ)))

/-- Embedding of `CTPHelper::GetChildParticles` (lines 205-219).  The loop over the
children calls `IsTrack(part,...)` and `IsShower(part,...)` on the *parent*
`part`, not on the loop variable `child` (lines 214-215); the child itself
only contributes `child->NumDaughters()` (line 216).  `partIsTrack` and
`partIsShower` are what those two external queries return for the parent. -/
def GetChildParticles (partIsTrack partIsShower : Bool) (children : List Child) :
    ℕ × ℕ × ℕ :=
  children.foldl
    (fun acc _child =>
      (acc.1 + (if partIsTrack then 1 else 0),
       acc.2.1 + (if partIsShower then 1 else 0),
       acc.2.2 + _child.numDaughters))
    (0, 0, 0)

/-- Modelled from the spec: the child counting the claim describes
(spec §4.4 first reading): classification evaluated on each *child*. -/
def GetChildParticlesClaim (children : List Child) : ℕ × ℕ × ℕ :=
  children.foldl
    (fun acc child =>
      (acc.1 + (if child.isTrk then 1 else 0),
       acc.2.1 + (if child.isShw then 1 else 0),
       acc.2.2 + child.numDaughters))
    (0, 0, 0)

/-- Embedding of `CTPHelper::GetNetworkInputs` (lines 64-123).
* line 68: if the particle is not track-like, return the empty vector;
* line 77: if the calorimetry dE/dx sequence has fewer than
  `fMinTrackPoints` entries, return the empty vector;
* line 83: smooth the sequence; lines 88-93: window statistics;
* lines 96-98: pad only when the smoothed size is `< fMinTrackPoints`;
* line 101: copy the last `fDedxLength` elements.  When the vector holds
  fewer than `fDedxLength` elements, `dedxVector.end() - fDedxLength`
  points before `begin()` and the copy is undefined behaviour, modelled as
  `none`;
* lines 103-120: the 7 scalar features in their fixed order. -/
def GetNetworkInputs (cfg : Config) (sq : ℚ → ℚ) (angle : V3 → V3 → ℚ)
    (partIsTrack partIsShower : Bool)
    (caloDedx : List ℚ) (children : List Child) (trajDirs : List V3)
    (gauss : ℚ → ℚ → ℕ → ℚ) (hg : GaussOk gauss) : Option (List (List ℚ)) :=
  if partIsTrack = false then some [] else
  if caloDedx.length < cfg.minTrackPoints then some [] else
  let dedxVector := SmoothDedxVector cfg.QMax cfg.QJump caloDedx
  let ms := GetDedxMeanAndSigma sq (dedxWindow cfg dedxVector)
  let dedxVector2 :=
    if dedxVector.length < cfg.minTrackPoints
    then PadDedxVector cfg.dedxLength gauss hg ms.1 ms.2 dedxVector
    else dedxVector
  if dedxVector2.length < cfg.dedxLength then none
  else
    let finalInputDedx := dedxVector2.drop (dedxVector2.length - cfg.dedxLength)
    let cc := GetChildParticles partIsTrack partIsShower children
    let ds := GetDeflectionMeanAndSigma sq angle trajDirs
    some [finalInputDedx,
          [(cc.1 : ℚ), (cc.2.1 : ℚ), (cc.2.2 : ℚ), ms.1, ms.2, ds.1, ds.2]]

/-! ### Concrete instantiations used by witnesses and counterexamples -/

/-- A small configuration of the same shape as the defaults (50/100/1000/500):
`fMinTrackPoints = 5`, `fDedxLength = 10`, `fQMax = 1000`, `fQJump = 500`. -/
def cfg5 : Config := ⟨5, 10, 1000, 500⟩

/-- A random stream that always draws 1. -/
def gaussOne : ℚ → ℚ → ℕ → ℚ := fun _ _ _ => 1

lemma gaussOk_one : GaussOk gaussOne := fun _ _ _ => ⟨0, by norm_num [gaussOne]⟩

/-- A random stream whose draw 0 is negative (it must be rejected and
resampled) and whose later draws are 1. -/
def gaussAlt : ℚ → ℚ → ℕ → ℚ := fun _ _ n => if n = 0 then -1 else 1

lemma gaussOk_alt : GaussOk gaussAlt := fun _ _ k => ⟨1, by norm_num [gaussAlt]⟩

/-! ### Helper lemmas -/

lemma smoothStep_length (J : ℚ) (d : List ℚ) (q : ℕ) :
    (smoothStep J d q).length = d.length := by
  unfold smoothStep; split <;> simp

lemma foldl_smoothStep_length (J : ℚ) (l : List ℕ) :
    ∀ d : List ℚ, (l.foldl (smoothStep J) d).length = d.length := by
  induction l with
  | nil => intro d; rfl
  | cons a t ih => intro d; rw [List.foldl_cons, ih, smoothStep_length]

lemma SmoothDedxVector_length (m J : ℚ) (d : List ℚ) :
    (SmoothDedxVector m J d).length = d.length := by
  simp only [SmoothDedxVector]
  rw [foldl_smoothStep_length]
  split <;> split <;> simp

lemma smoothStep_of_le (J : ℚ) (d : List ℚ) (q : ℕ)
    (h : d.getD q 0 - d.getD (q - 1) 0 ≤ J) : smoothStep J d q = d := by
  unfold smoothStep
  simp only [gt_iff_lt]
  rw [if_neg (not_lt.2 h)]

lemma foldl_smoothStep_id (J : ℚ) (d : List ℚ) :
    ∀ l : List ℕ, (∀ q ∈ l, d.getD q 0 - d.getD (q - 1) 0 ≤ J) →
      l.foldl (smoothStep J) d = d := by
  intro l
  induction l with
  | nil => intro _; rfl
  | cons a t ih =>
    intro h
    rw [List.foldl_cons, smoothStep_of_le J d a (h a (by simp)),
      ih (fun q hq => h q (by simp [hq]))]

lemma GetDedxMeanAndSigma_reverse (sq : ℚ → ℚ) (l : List ℚ) :
    GetDedxMeanAndSigma sq l.reverse = GetDedxMeanAndSigma sq l := by
  simp [GetDedxMeanAndSigma, List.map_reverse, List.sum_reverse]

lemma padLoop_append (gauss : ℚ → ℚ → ℕ → ℚ) (hg : GaussOk gauss) (mean sigma : ℚ) :
    ∀ (m pos : ℕ) (d : List ℚ),
      ∃ pads : List ℚ, padLoop gauss hg mean sigma m pos d = pads ++ d
        ∧ ∀ x ∈ pads, 0 ≤ x := by
  intro m
  induction m with
  | zero => exact fun pos d => ⟨[], rfl, by simp⟩
  | succ m ih =>
    intro pos d
    obtain ⟨pads, heq, hpos⟩ :=
      ih (pos + Nat.find (hg mean sigma pos) + 1)
        (gauss mean sigma (pos + Nat.find (hg mean sigma pos)) :: d)
    refine ⟨pads ++ [gauss mean sigma (pos + Nat.find (hg mean sigma pos))], ?_, ?_⟩
    · simp only [padLoop]
      rw [heq]
      simp
    · intro x hx
      rcases List.mem_append.1 hx with h | h
      · exact hpos x h
      · rw [List.mem_singleton.1 h]
        exact Nat.find_spec (hg mean sigma pos)

lemma GetNetworkInputs_valid (cfg : Config) (sq : ℚ → ℚ) (angle : V3 → V3 → ℚ)
    (psh : Bool) (children : List Child) (dirs : List V3)
    (gauss : ℚ → ℚ → ℕ → ℚ) (hg : GaussOk gauss) (caloDedx : List ℚ)
    (h : cfg.minTrackPoints ≤ caloDedx.length) :
    GetNetworkInputs cfg sq angle true psh caloDedx children dirs gauss hg
      = (if (SmoothDedxVector cfg.QMax cfg.QJump caloDedx).length < cfg.dedxLength then none
         else some
          [(SmoothDedxVector cfg.QMax cfg.QJump caloDedx).drop
              ((SmoothDedxVector cfg.QMax cfg.QJump caloDedx).length - cfg.dedxLength),
           [((GetChildParticles true psh children).1 : ℚ),
            ((GetChildParticles true psh children).2.1 : ℚ),
            ((GetChildParticles true psh children).2.2 : ℚ),
            (GetDedxMeanAndSigma sq
              (dedxWindow cfg (SmoothDedxVector cfg.QMax cfg.QJump caloDedx))).1,
            (GetDedxMeanAndSigma sq
              (dedxWindow cfg (SmoothDedxVector cfg.QMax cfg.QJump caloDedx))).2,
            (GetDeflectionMeanAndSigma sq angle dirs).1,
            (GetDeflectionMeanAndSigma sq angle dirs).2]]) := by
  have hlen := SmoothDedxVector_length cfg.QMax cfg.QJump caloDedx
  simp only [GetNetworkInputs]
  rw [if_neg (by simp : ¬(true = false)), if_neg (not_lt.2 h),
    if_neg (show ¬((SmoothDedxVector cfg.QMax cfg.QJump caloDedx).length < cfg.minTrackPoints) by
      rw [hlen]; exact not_lt.2 h)]

/-! ### Claims -/

/-- C1 (code_bug evidence): the "clamp" loop of `SmoothDedxVector`
(lines 136-139) iterates by value and therefore changes nothing: an
all-2000 input (with `fQMax = 1000`) and an all-(-5) input pass through the
conditioner unchanged, while the clamp the spec describes would have
produced all-1000 and all-0 respectively.  So the smoothing pass does not
operate on a clamped sequence. -/
theorem C1_clamp_loop_is_noop :
    SmoothDedxVector 1000 500 [2000, 2000, 2000] = [2000, 2000, 2000]
    ∧ SmoothDedxVector 1000 500 [-5, -5, -5] = [-5, -5, -5]
    ∧ clampSpec 1000 [2000, 2000, 2000] = [1000, 1000, 1000]
    ∧ clampSpec 1000 [-5, -5, -5] = [0, 0, 0] := by
  refine ⟨?_, ?_, ?_, ?_⟩ <;>
    norm_num [SmoothDedxVector, smoothStep, clampSpec, List.range']

/-- C4 (code_bug evidence): `GetChildParticles` evaluates the track/shower
classification on the parent, not on each child.  For a shower-like parent
(`IsTrack(part) = false`, `IsShower(part) = true`) with two track-like
children having 3 and 4 daughters, the code returns `(0, 2, 7)`, while
classifying each child as the claim states would return `(2, 0, 7)`.
The grandchild count (7) agrees. -/
theorem C4_counts_classify_parent_not_child :
    GetChildParticles false true [⟨3, true, false⟩, ⟨4, true, false⟩] = (0, 2, 7)
    ∧ GetChildParticlesClaim [⟨3, true, false⟩, ⟨4, true, false⟩] = (2, 0, 7) := by
  constructor <;> rfl

/-- C7: `GetDedxMeanAndSigma` returns `mean = sum / count` and
`sigma = sqrt(sum((mean - v)^2) / count)` — the population standard
deviation (divide by N, not N-1) — and on a constant sequence of value `v`
it returns mean `v` and sigma `0`.  `sq` abstracts `std::sqrt`;
`hsq` records that `sqrt 0 = 0`. -/
theorem C7_stats_population (sq : ℚ → ℚ) (hsq : sq 0 = 0) (d : List ℚ) (hne : d ≠ []) :
    (GetDedxMeanAndSigma sq d).1 = d.sum / (d.length : ℚ)
    ∧ (GetDedxMeanAndSigma sq d).2
        = sq ((d.map (fun v => (d.sum / (d.length : ℚ) - v) * (d.sum / (d.length : ℚ) - v))).sum
            / (d.length : ℚ))
    ∧ ∀ v : ℚ, (∀ x ∈ d, x = v) → GetDedxMeanAndSigma sq d = (v, 0) := by
  have hn0 : d.length ≠ 0 := by simpa [List.length_eq_zero] using hne
  have hn : (d.length : ℚ) ≠ 0 := Nat.cast_ne_zero.2 hn0
  refine ⟨rfl, rfl, ?_⟩
  intro v hv
  have hsum : d.sum = (d.length : ℚ) * v := by
    rw [List.sum_eq_card_nsmul d v hv, nsmul_eq_mul]
  have hmean : d.sum / (d.length : ℚ) = v := by
    rw [hsum, mul_div_cancel_left₀ _ hn]
  have hmap :
      (d.map (fun q => (d.sum / (d.length : ℚ) - q) * (d.sum / (d.length : ℚ) - q))).sum = 0 := by
    have hz : ∀ y ∈ d.map (fun q => (d.sum / (d.length : ℚ) - q) * (d.sum / (d.length : ℚ) - q)),
        y = 0 := by
      intro y hy
      rcases List.mem_map.1 hy with ⟨x, hx, rfl⟩
      rw [hmean, hv x hx]
      ring
    rw [List.sum_eq_card_nsmul _ 0 hz]
    simp
  simp only [GetDedxMeanAndSigma]
  rw [hmap, zero_div, hsq, hmean]

/-- C7 witness: the constant sequence `[5, 5]` with `sqrt` modelled by the
identity function. -/
theorem C7_stats_population_witness :
    ((fun q : ℚ => q) 0 = 0) ∧ (([5, 5] : List ℚ) ≠ [])
    ∧ GetDedxMeanAndSigma (fun q : ℚ => q) [5, 5] = (5, 0) := by
  refine ⟨rfl, by simp, ?_⟩
  refine (C7_stats_population (fun q : ℚ => q) rfl [5, 5] (by simp)).2.2 5 ?_
  intro x hx
  rcases List.mem_cons.1 hx with h | h
  · exact h
  · simpa using h

/-- C8: on a sequence of length ≥ 3 whose values lie in `[0, fQMax]` and in
which no difference checked by the jump rules (first, last, interior)
exceeds `fQJump`, `SmoothDedxVector` is the identity — in particular it
preserves the length. -/
theorem C8_conditioner_identity (QMax QJump : ℚ) (d : List ℚ)
    (hlen : 3 ≤ d.length)
    (hrange : ∀ x ∈ d, 0 ≤ x ∧ x ≤ QMax)
    (hfirst : d.getD 0 0 - d.getD 1 0 ≤ QJump)
    (hlast : d.getD (d.length - 1) 0 - d.getD (d.length - 2) 0 ≤ QJump)
    (hint : ∀ q, 1 ≤ q → q < d.length - 1 → d.getD q 0 - d.getD (q - 1) 0 ≤ QJump) :
    SmoothDedxVector QMax QJump d = d := by
  simp only [SmoothDedxVector, gt_iff_lt]
  rw [if_neg (not_lt.2 hfirst), if_neg (not_lt.2 hlast)]
  refine foldl_smoothStep_id QJump d _ (fun q hq => ?_)
  rcases List.mem_range'_1.1 hq with ⟨h1, h2⟩
  exact hint q h1 (by omega)

/-- C8 witness: the jump-free sequence `[1, 2, 3]` with `fQMax = 1000`,
`fQJump = 500`. -/
theorem C8_conditioner_identity_witness :
    (3 ≤ ([1, 2, 3] : List ℚ).length)
    ∧ SmoothDedxVector 1000 500 [1, 2, 3] = [1, 2, 3] := by
  refine ⟨by simp, ?_⟩
  refine C8_conditioner_identity 1000 500 [1, 2, 3] (by simp) ?_ (by norm_num) (by norm_num) ?_
  · intro x hx
    rcases List.mem_cons.1 hx with h | hx
    · norm_num [h]
    rcases List.mem_cons.1 hx with h | hx
    · norm_num [h]
    · norm_num [List.mem_singleton.1 hx]
  · intro q h1 h2
    have h2' : q < 2 := by simpa using h2
    have hq : q = 1 := by omega
    subst hq
    norm_num

/-- C9: every value `PadDedxVector` prepends is non-negative, for every
`(mean, sigma)` and every random stream: the result is `pads ++ dedx` with
all of `pads` ≥ 0 (a negative draw is resampled, never inserted). -/
theorem C9_padding_nonneg (L : ℕ) (gauss : ℚ → ℚ → ℕ → ℚ) (hg : GaussOk gauss)
    (mean sigma : ℚ) (dedx : List ℚ) :
    ∃ pads : List ℚ, PadDedxVector L gauss hg mean sigma dedx = pads ++ dedx
      ∧ ∀ x ∈ pads, 0 ≤ x :=
  padLoop_append gauss hg mean sigma (L - dedx.length) 0 dedx

/-- C9 witness: target length 3 over `[5]`, with a stream whose first draw
is negative (so the rejection loop is exercised). -/
theorem C9_padding_nonneg_witness :
    ∃ pads : List ℚ, PadDedxVector 3 gaussAlt gaussOk_alt 0 1 [5] = pads ++ [5]
      ∧ ∀ x ∈ pads, 0 ≤ x :=
  C9_padding_nonneg 3 gaussAlt gaussOk_alt 0 1 [5]

/-- C2 (code_bug evidence): with `minLength = 5`, `targetLength = 10`
(`cfg5`), an accepted track of exactly `minLength` samples does not produce
a `targetLength`-element vector: the padding guard at line 96 compares
against `fMinTrackPoints` (never true after the line-77 guard, despite the
comment at line 95 saying the `[fMinTrackPoints, fDedxLength)` case must be
padded), so the copy at line 101 starts at `end() - fDedxLength`, before
`begin()` — undefined behaviour, modelled as `none`. -/
theorem C2_mid_length_track_is_undefined :
    GetNetworkInputs cfg5 (fun _ => 0) (fun _ _ => 0) true false
      [1, 1, 1, 1, 1] [] [(0, 0, 1), (0, 0, 1)] gaussOne gaussOk_one = none := by
  norm_num [GetNetworkInputs, SmoothDedxVector, smoothStep, dedxWindow,
    pointsForAverage, GetDedxMeanAndSigma, cfg5, List.range']

/-- C3 counterexample: with `cfg5` (`p = (10-5)/3 = 1`) and the length-10
input below (`n-1-2p = 7`, `n-1-p = 8`), the pipeline's window is the
element at index 8 (value 1) — the scalar vector reports window mean 1 —
whereas the elements at indices in the claimed half-open range `[7, 8)`
give mean 9. -/
theorem C3_window_off_by_one_counterexample :
    GetNetworkInputs cfg5 (fun _ => 0) (fun _ _ => 0) true false
      [0, 0, 0, 0, 0, 0, 0, 9, 1, 0] [] [(0, 0, 1), (0, 0, 1)] gaussOne gaussOk_one
      = some [[0, 0, 0, 0, 0, 0, 0, 9, 1, 0], [0, 0, 0, 1, 0, 0, 0]]
    ∧ dedxWindow cfg5 [0, 0, 0, 0, 0, 0, 0, 9, 1, 0] = [1]
    ∧ dedxWindowClaim cfg5 [0, 0, 0, 0, 0, 0, 0, 9, 1, 0] = [9]
    ∧ (GetDedxMeanAndSigma (fun _ => 0)
        (dedxWindowClaim cfg5 [0, 0, 0, 0, 0, 0, 0, 9, 1, 0])).1 = 9 := by
  refine ⟨?_, ?_, ?_, ?_⟩ <;>
    norm_num [GetNetworkInputs, SmoothDedxVector, smoothStep, dedxWindow,
      dedxWindowClaim, pointsForAverage, GetDedxMeanAndSigma,
      GetDeflectionMeanAndSigma, GetChildParticles, cfg5, List.range']

/-- C3 (amended): the window the code reads consists of the elements at
indices in `[n - 2p, n - 1 - p]` — equivalently the half-open range
`(n-1-2p, n-1-p]` — traversed in reverse order, and reading them in
forward order gives the same mean and sigma. -/
theorem C3_window_amended (cfg : Config) (sq : ℚ → ℚ) (d : List ℚ)
    (h : 2 * pointsForAverage cfg + 1 ≤ d.length) :
    dedxWindow cfg d
      = ((List.range' (d.length - 2 * pointsForAverage cfg) (pointsForAverage cfg)).map
          (fun e => d.getD e 0)).reverse
    ∧ GetDedxMeanAndSigma sq (dedxWindow cfg d)
      = GetDedxMeanAndSigma sq
          ((List.range' (d.length - 2 * pointsForAverage cfg) (pointsForAverage cfg)).map
            (fun e => d.getD e 0)) := by
  have h1 : d.length - 1 - 2 * pointsForAverage cfg + 1
      = d.length - 2 * pointsForAverage cfg := by omega
  have h2 : d.length - 1 - pointsForAverage cfg - (d.length - 1 - 2 * pointsForAverage cfg)
      = pointsForAverage cfg := by omega
  have hwin : dedxWindow cfg d
      = ((List.range' (d.length - 2 * pointsForAverage cfg) (pointsForAverage cfg)).map
          (fun e => d.getD e 0)).reverse := by
    simp only [dedxWindow]
    rw [h1, h2, List.map_reverse]
  exact ⟨hwin, by rw [hwin, GetDedxMeanAndSigma_reverse]⟩

/-- C3 witness: `cfg5` and a length-5 sequence (`p = 1`, window = index 3). -/
theorem C3_window_amended_witness :
    (2 * pointsForAverage cfg5 + 1 ≤ ([0, 0, 9, 1, 0] : List ℚ).length)
    ∧ GetDedxMeanAndSigma (fun q : ℚ => q) (dedxWindow cfg5 [0, 0, 9, 1, 0])
        = GetDedxMeanAndSigma (fun q : ℚ => q)
            ((List.range' (([0, 0, 9, 1, 0] : List ℚ).length - 2 * pointsForAverage cfg5)
                (pointsForAverage cfg5)).map (fun e => ([0, 0, 9, 1, 0] : List ℚ).getD e 0)) :=
  ⟨by decide, (C3_window_amended cfg5 (fun q : ℚ => q) [0, 0, 9, 1, 0] (by decide)).2⟩

/-- C5: once a track passes the minimum-length guard, the padding branch is
unreachable — smoothing preserves the length, so the line-96 test
`size < fMinTrackPoints` is false — and consequently `GetNetworkInputs`
does not depend on the random stream at all: no output ever contains a
synthetic padded value. -/
theorem C5_padding_unreachable (cfg : Config) (sq : ℚ → ℚ) (angle : V3 → V3 → ℚ)
    (psh : Bool) (children : List Child) (dirs : List V3)
    (gauss : ℚ → ℚ → ℕ → ℚ) (hg : GaussOk gauss) (caloDedx : List ℚ)
    (h : cfg.minTrackPoints ≤ caloDedx.length) :
    ¬ ((SmoothDedxVector cfg.QMax cfg.QJump caloDedx).length < cfg.minTrackPoints)
    ∧ ∀ (pt : Bool) (gauss2 : ℚ → ℚ → ℕ → ℚ) (hg2 : GaussOk gauss2),
        GetNetworkInputs cfg sq angle pt psh caloDedx children dirs gauss hg
          = GetNetworkInputs cfg sq angle pt psh caloDedx children dirs gauss2 hg2 := by
  have hlen := SmoothDedxVector_length cfg.QMax cfg.QJump caloDedx
  refine ⟨by rw [hlen]; exact not_lt.2 h, ?_⟩
  intro pt gauss2 hg2
  cases pt with
  | false => rfl
  | true =>
    rw [GetNetworkInputs_valid cfg sq angle psh children dirs gauss hg caloDedx h,
      GetNetworkInputs_valid cfg sq angle psh children dirs gauss2 hg2 caloDedx h]

/-- C5 witness: `cfg5` and a 5-sample track. -/
theorem C5_padding_unreachable_witness :
    (cfg5.minTrackPoints ≤ ([1, 1, 1, 1, 1] : List ℚ).length)
    ∧ ¬ ((SmoothDedxVector cfg5.QMax cfg5.QJump [1, 1, 1, 1, 1]).length < cfg5.minTrackPoints)
    ∧ ∀ (pt : Bool) (gauss2 : ℚ → ℚ → ℕ → ℚ) (hg2 : GaussOk gauss2),
        GetNetworkInputs cfg5 (fun q : ℚ => q) (fun _ _ => 0) pt true
            [1, 1, 1, 1, 1] [] [] gaussOne gaussOk_one
          = GetNetworkInputs cfg5 (fun q : ℚ => q) (fun _ _ => 0) pt true
            [1, 1, 1, 1, 1] [] [] gauss2 hg2 := by
  have h : cfg5.minTrackPoints ≤ ([1, 1, 1, 1, 1] : List ℚ).length := by decide
  have hc := C5_padding_unreachable cfg5 (fun q : ℚ => q) (fun _ _ => 0) true [] []
    gaussOne gaussOk_one [1, 1, 1, 1, 1] h
  exact ⟨h, hc.1, hc.2⟩

/-- C6: when the particle is not track-like, or its dE/dx sequence is
shorter than `fMinTrackPoints`, `GetNetworkInputs` returns the empty
vector — a defined value (`some []`), not an exception or undefined
behaviour. -/
theorem C6_reject_paths_return_empty (cfg : Config) (sq : ℚ → ℚ) (angle : V3 → V3 → ℚ)
    (psh : Bool) (children : List Child) (dirs : List V3)
    (gauss : ℚ → ℚ → ℕ → ℚ) (hg : GaussOk gauss) (pt : Bool) (caloDedx : List ℚ)
    (h : pt = false ∨ caloDedx.length < cfg.minTrackPoints) :
    GetNetworkInputs cfg sq angle pt psh caloDedx children dirs gauss hg = some [] := by
  rcases h with h | h
  · subst h
    rfl
  · cases pt with
    | false => rfl
    | true =>
      simp only [GetNetworkInputs]
      rw [if_neg (by simp : ¬(true = false)), if_pos h]

/-- C6 witness: a non-track-like particle. -/
theorem C6_reject_paths_return_empty_witness :
    ((false = false) ∨ (([] : List ℚ).length < cfg5.minTrackPoints))
    ∧ GetNetworkInputs cfg5 (fun q : ℚ => q) (fun _ _ => 0) false true [] [] []
        gaussOne gaussOk_one = some [] :=
  ⟨Or.inl rfl,
    C6_reject_paths_return_empty cfg5 (fun q : ℚ => q) (fun _ _ => 0) true [] []
      gaussOne gaussOk_one false [] (Or.inl rfl)⟩

/-- C10: every successful (non-empty) invocation returns two vectors, the
second of which has exactly 7 elements in the fixed order: child-track
count, child-shower count, grandchild count, dE/dx window mean, dE/dx
window sigma, deflection mean, deflection sigma.  (`3 ≤ fMinTrackPoints`
keeps the smoothing loop of the C++ inside the buffer on the accepted
path.) -/
theorem C10_scalar_features_order (cfg : Config) (sq : ℚ → ℚ) (angle : V3 → V3 → ℚ)
    (pt psh : Bool) (caloDedx : List ℚ) (children : List Child) (dirs : List V3)
    (gauss : ℚ → ℚ → ℕ → ℚ) (hg : GaussOk gauss) (out : List (List ℚ))
    (hmin : 3 ≤ cfg.minTrackPoints)
    (hout : GetNetworkInputs cfg sq angle pt psh caloDedx children dirs gauss hg = some out)
    (hne : out ≠ []) :
    out.length = 2
    ∧ out.getD 1 []
      = [((GetChildParticles pt psh children).1 : ℚ),
         ((GetChildParticles pt psh children).2.1 : ℚ),
         ((GetChildParticles pt psh children).2.2 : ℚ),
         (GetDedxMeanAndSigma sq
            (dedxWindow cfg (SmoothDedxVector cfg.QMax cfg.QJump caloDedx))).1,
         (GetDedxMeanAndSigma sq
            (dedxWindow cfg (SmoothDedxVector cfg.QMax cfg.QJump caloDedx))).2,
         (GetDeflectionMeanAndSigma sq angle dirs).1,
         (GetDeflectionMeanAndSigma sq angle dirs).2]
    ∧ (out.getD 1 []).length = 7 := by
  cases pt with
  | false =>
    have hcontr : some ([] : List (List ℚ)) = some out := hout
    exact absurd (Option.some.inj hcontr).symm hne
  | true =>
    by_cases hlt : caloDedx.length < cfg.minTrackPoints
    · have hempty : GetNetworkInputs cfg sq angle true psh caloDedx children dirs gauss hg
          = some [] :=
        C6_reject_paths_return_empty cfg sq angle psh children dirs gauss hg true caloDedx
          (Or.inr hlt)
      rw [hempty] at hout
      exact absurd (Option.some.inj hout).symm hne
    · rw [GetNetworkInputs_valid cfg sq angle psh children dirs gauss hg caloDedx
        (not_lt.1 hlt)] at hout
      by_cases h2 : (SmoothDedxVector cfg.QMax cfg.QJump caloDedx).length < cfg.dedxLength
      · rw [if_pos h2] at hout
        exact absurd hout (by simp)
      · rw [if_neg h2] at hout
        have hsome := Option.some.inj hout
        rw [← hsome]
        exact ⟨rfl, rfl, rfl⟩

/-- C10 witness: a successful run with `cfg5` on a 10-sample track with one
track-like child carrying one daughter. -/
theorem C10_scalar_features_order_witness :
    (3 ≤ cfg5.minTrackPoints)
    ∧ GetNetworkInputs cfg5 (fun q : ℚ => q) (fun _ _ => 0) true false
        [2, 2, 2, 2, 2, 2, 2, 2, 2, 2] [⟨1, true, false⟩] [(1, 0, 0), (1, 0, 0)]
        gaussOne gaussOk_one
      = some [[2, 2, 2, 2, 2, 2, 2, 2, 2, 2], [1, 0, 1, 2, 0, 0, 0]]
    ∧ ([[2, 2, 2, 2, 2, 2, 2, 2, 2, 2], [1, 0, 1, 2, 0, 0, 0]] : List (List ℚ)).length = 2
    ∧ (([[2, 2, 2, 2, 2, 2, 2, 2, 2, 2], [1, 0, 1, 2, 0, 0, 0]] : List (List ℚ)).getD 1 []).length
        = 7 := by
  have hout : GetNetworkInputs cfg5 (fun q : ℚ => q) (fun _ _ => 0) true false
      [2, 2, 2, 2, 2, 2, 2, 2, 2, 2] [⟨1, true, false⟩] [(1, 0, 0), (1, 0, 0)]
      gaussOne gaussOk_one
      = some [[2, 2, 2, 2, 2, 2, 2, 2, 2, 2], [1, 0, 1, 2, 0, 0, 0]] := by
    norm_num [GetNetworkInputs, SmoothDedxVector, smoothStep, dedxWindow,
      pointsForAverage, GetDedxMeanAndSigma, GetDeflectionMeanAndSigma,
      GetChildParticles, cfg5, List.range']
  have h := C10_scalar_features_order cfg5 (fun q : ℚ => q) (fun _ _ => 0) true false
    [2, 2, 2, 2, 2, 2, 2, 2, 2, 2] [⟨1, true, false⟩] [(1, 0, 0), (1, 0, 0)]
    gaussOne gaussOk_one [[2, 2, 2, 2, 2, 2, 2, 2, 2, 2], [1, 0, 1, 2, 0, 0, 0]]
    (by decide) hout (by simp)
  exact ⟨by decide, hout, h.1, h.2.2⟩

end CTP
